import Mathlib

/-!
Verification of the hebrew-recipe-extractor pipeline.

Shallow embedding of the extraction/normalization core:
* `src/lib/json-ld-parser.ts` — `parseIngredient`, `parseHebrewNumber`,
  `parseUnit`, `isValidRecipe` and the static Hebrew lookup tables from
  `src/schemas/recipe.ts`.
* `src/lib/format.ts` — `formatQuantity`.
* `src/services/llm-parser.ts` — `parseWithLLM`, `refineRecipe`.
* `src/services/extractor.ts` — `RecipeExtractor.extract`.

JavaScript strings are modelled as `List Char`; JavaScript numbers are
modelled as exact rationals (`Q` below) with a fuel-based, kernel-computable
normalization, since every numeric literal and comparison in the modelled
code is an exact short decimal.  External effects (the HTTP fetch, the HTML
and JSON-LD scan, and the schema-constrained generation call) are passed to
the orchestrator as explicit inputs: the orchestrator's control flow depends
only on their returned values.
-/

set_option maxRecDepth 100000

namespace Hrx

/-- JS strings are modelled as lists of characters. -/
abbrev Str := List Char

/-- The whitespace class used by JS `trim` and the `\s` regex class. -/
def isSpace (c : Char) : Bool :=
  c == ' ' || c == '\t' || c == '\n' || c == '\r' || c.toNat == 11 || c.toNat == 12 ||
  c.toNat == 0xA0 || c.toNat == 0x1680 || (0x2000 ≤ c.toNat && c.toNat ≤ 0x200A) ||
  c.toNat == 0x2028 || c.toNat == 0x2029 || c.toNat == 0x202F || c.toNat == 0x205F ||
  c.toNat == 0x3000 || c.toNat == 0xFEFF

/-- JS `String.prototype.trimStart`. -/
def trimLeft (s : Str) : Str := s.dropWhile isSpace

/-- JS `String.prototype.trim`. -/
def trim (s : Str) : Str := ((trimLeft s).reverse.dropWhile isSpace).reverse

/-- JS `String.prototype.toLowerCase` (ASCII range; Hebrew is case-less). -/
def toLowerStr (s : Str) : Str := s.map Char.toLower

/-- Does `s` start with `p`?  (Exact character match.) -/
def startsWithL : Str → Str → Bool
  | [], _ => true
  | _ :: _, [] => false
  | p :: ps, c :: cs => p == c && startsWithL ps cs

/-- Case-insensitive version of `startsWithL` (JS regex `i` flag / `includes`
on a lowercased string). -/
def ciStartsWith : Str → Str → Bool
  | [], _ => true
  | _ :: _, [] => false
  | p :: ps, c :: cs => (p.toLower == c.toLower) && ciStartsWith ps cs

/-- JS `String.prototype.includes`: is `pat` a contiguous substring of `s`? -/
def containsSub : Str → Str → Bool
  | [], pat => startsWithL pat []
  | c :: rest, pat => startsWithL pat (c :: rest) || containsSub rest pat

/-- JS `String.prototype.replace(pat, '')` with a plain-string pattern:
remove the first occurrence of `pat`. -/
def removeFirst : Str → Str → Str
  | [], _ => []
  | c :: rest, pat =>
    if startsWithL pat (c :: rest) then (c :: rest).drop pat.length
    else c :: removeFirst rest pat

/-!  Exact rationals standing in for JS numbers.  All operations normalize,
so structural equality on produced values coincides with rational equality,
which mirrors `===` on the (exactly representable) decimals the code
compares.  `den = 0` is a non-finite marker (the JS code can only produce it
via a division by zero, which is unreachable in the claims below). -/

structure Q where
  num : Int
  den : Nat
deriving DecidableEq

/-- Euclid's algorithm with explicit fuel, so that it kernel-reduces.
The first argument strictly decreases, so fuel `m + 1` always suffices. -/
def gcdAux : Nat → Nat → Nat → Nat
  | 0, _, n => n
  | fuel + 1, m, n => if m = 0 then n else gcdAux fuel (n % m) m

def gcdF (m n : Nat) : Nat := gcdAux (m + 1) m n

/-- Normalized rational `n / d`. -/
def qNorm (n : Int) (d : Nat) : Q :=
  if d = 0 then ⟨Int.sign n, 0⟩
  else
    let g := gcdF n.natAbs d
    ⟨n / (g : Int), d / g⟩

def qNeg (q : Q) : Q := ⟨-q.num, q.den⟩

def qSub (a b : Q) : Q := qNorm (a.num * b.den - b.num * a.den) (a.den * b.den)

def qLt (a b : Q) : Bool := decide (a.num * (b.den : Int) < b.num * (a.den : Int))

/-- JS `Math.floor` on a rational. -/
def qFloor (q : Q) : Int := Int.fdiv q.num q.den

/-- JS `Number.isInteger` on a normalized rational. -/
def qIsInt (q : Q) : Bool := q.den == 1

/-! Static lookup tables from `src/schemas/recipe.ts`, in object-literal
insertion order (the JS code iterates them with `Object.entries`).  The
geresh and gershayim marks appearing inside some Hebrew unit names are the
ASCII apostrophe (code 39) and double quote (code 34). -/

def aposCh : Char := Char.ofNat 39

def dquoteCh : Char := Char.ofNat 34

/-- `UnitCode` — the closed unit enumeration of `src/schemas/recipe.ts`. -/
inductive UnitCode
  | cup | tbsp | tsp | ml | l | fl_oz
  | g | kg | oz | lb
  | piece | slice | clove | bunch | package | can | jar | bag
  | pinch | dash | to_taste | as_needed | unknown
deriving DecidableEq

open UnitCode in
/-- `HEBREW_UNIT_MAP` — Hebrew unit word → `UnitCode`, in insertion order. -/
def hebrewUnitPairs : List (Str × UnitCode) :=
  [(("כוס").toList, cup), (("כוסות").toList, cup),
   (("כף").toList, tbsp), (("כפות").toList, tbsp), (("כף גדושה").toList, tbsp),
   (("כפית").toList, tsp), (("כפיות").toList, tsp),
   (['מ', dquoteCh, 'ל'], ml), (("מיליליטר").toList, ml),
   (("ליטר").toList, l), (['ל', aposCh], l),
   (("גרם").toList, g), (['ג', aposCh], g), (['ג', dquoteCh, 'ר'], g),
   (("קילו").toList, kg), (['ק', dquoteCh, 'ג'], kg), (("קילוגרם").toList, kg),
   (("יחידה").toList, piece), (("יחידות").toList, piece),
   (("פרוסה").toList, UnitCode.slice), (("פרוסות").toList, UnitCode.slice),
   (("שן").toList, clove), (("שיני").toList, clove), (("שיניים").toList, clove),
   (("צרור").toList, bunch), (("אגודה").toList, bunch),
   (("חבילה").toList, package),
   (("שקית").toList, bag), (("שקיות").toList, bag),
   (("פחית").toList, can), (("קופסה").toList, can),
   (("צנצנת").toList, jar),
   (("קורט").toList, pinch), (("קמצוץ").toList, pinch),
   (("מעט").toList, dash),
   (("לפי הטעם").toList, to_taste), (("לטעימה").toList, to_taste),
   (("כנדרש").toList, as_needed), (("לפי הצורך").toList, as_needed)]

/-- `HEBREW_FRACTION_MAP` — Hebrew fraction word → value, in insertion order. -/
def hebrewFractionPairs : List (Str × Q) :=
  [(("חצי").toList, ⟨1, 2⟩),
   (("רבע").toList, ⟨1, 4⟩),
   (("שליש").toList, ⟨333, 1000⟩),
   (("שני שליש").toList, ⟨667, 1000⟩),
   (("שלושת רבעי").toList, ⟨3, 4⟩),
   (("שמינית").toList, ⟨1, 8⟩)]

/-- `HEBREW_NUMBER_MAP` — Hebrew number word → value, in insertion order. -/
def hebrewNumberPairs : List (Str × Q) :=
  [(("אחד").toList, ⟨1, 1⟩), (("אחת").toList, ⟨1, 1⟩),
   (("שניים").toList, ⟨2, 1⟩), (("שתיים").toList, ⟨2, 1⟩),
   (("שלוש").toList, ⟨3, 1⟩), (("שלושה").toList, ⟨3, 1⟩),
   (("ארבע").toList, ⟨4, 1⟩), (("ארבעה").toList, ⟨4, 1⟩),
   (("חמש").toList, ⟨5, 1⟩), (("חמישה").toList, ⟨5, 1⟩),
   (("שש").toList, ⟨6, 1⟩), (("שישה").toList, ⟨6, 1⟩),
   (("שבע").toList, ⟨7, 1⟩), (("שבעה").toList, ⟨7, 1⟩),
   (("שמונה").toList, ⟨8, 1⟩),
   (("תשע").toList, ⟨9, 1⟩), (("תשעה").toList, ⟨9, 1⟩),
   (("עשר").toList, ⟨10, 1⟩), (("עשרה").toList, ⟨10, 1⟩)]

open UnitCode in
/-- The `englishUnits` record inside `parseUnit`, in insertion order. -/
def englishUnitPairs : List (Str × UnitCode) :=
  [(("cup").toList, cup), (("cups").toList, cup),
   (("tablespoon").toList, tbsp), (("tablespoons").toList, tbsp), (("tbsp").toList, tbsp),
   (("teaspoon").toList, tsp), (("teaspoons").toList, tsp), (("tsp").toList, tsp),
   (("gram").toList, g), (("grams").toList, g), (("g").toList, g),
   (("kilogram").toList, kg), (("kilograms").toList, kg), (("kg").toList, kg),
   (("ml").toList, ml), (("milliliter").toList, ml), (("milliliters").toList, ml),
   (("liter").toList, l), (("liters").toList, l), (("l").toList, l),
   (("ounce").toList, oz), (("ounces").toList, oz), (("oz").toList, oz),
   (("pound").toList, lb), (("pounds").toList, lb), (("lb").toList, lb), (("lbs").toList, lb),
   (("piece").toList, piece), (("pieces").toList, piece),
   (("slice").toList, UnitCode.slice), (("slices").toList, UnitCode.slice),
   (("clove").toList, clove), (("cloves").toList, clove),
   (("bunch").toList, bunch), (("package").toList, package),
   (("can").toList, can), (("jar").toList, jar), (("bag").toList, bag),
   (("pinch").toList, pinch), (("dash").toList, dash)]

/-- `Ingredient` from `src/schemas/recipe.ts`. -/
structure Ingredient where
  original : Str
  item : Str
  quantity : Option Q
  unit : Option UnitCode
  comments : Option Str
deriving DecidableEq

/-- The digit run of an ASCII digit string as a natural number
(JS `parseInt(s, 10)` on a pure digit string). -/
def digitsToNat (s : Str) : Nat := s.foldl (fun acc c => 10 * acc + (c.toNat - 48)) 0

/-- JS `parseFloat`, restricted to the character repertoire its callers can
produce here (sign, digits, a decimal point, then arbitrary trailing text;
exponents and `Infinity` literals never occur in the numeral runs fed to it).
`parseFloat` parses the longest numeric *prefix* and ignores the rest, so
for example `parseFloat("1/2") = 1`. -/
def jsParseFloat (s : Str) : Option Q :=
  let t := s.dropWhile isSpace
  let signRest : Bool × Str :=
    match t with
    | '-' :: r => (true, r)
    | '+' :: r => (false, r)
    | _ => (false, t)
  let neg := signRest.1
  let t1 := signRest.2
  let ip := t1.takeWhile Char.isDigit
  let t2 := t1.drop ip.length
  let parsed : Option Q :=
    match t2 with
    | '.' :: r =>
      let fp := r.takeWhile Char.isDigit
      if ip.isEmpty && fp.isEmpty then none
      else some (qNorm ((digitsToNat ip * 10 ^ fp.length + digitsToNat fp : Nat) : Int)
                       (10 ^ fp.length))
    | _ => if ip.isEmpty then none else some ⟨(digitsToNat ip : Int), 1⟩
  parsed.map (fun q => if neg then qNeg q else q)

/-- First match of the regex `(\d+)\s*\/\s*(\d+)` starting exactly at the
front of `s` (returns numerator and denominator digits). -/
def slashFractionAt (s : Str) : Option (Nat × Nat) :=
  let a := s.takeWhile Char.isDigit
  if a.isEmpty then none
  else
    match (s.drop a.length).dropWhile isSpace with
    | '/' :: r2 =>
      let b := (r2.dropWhile isSpace).takeWhile Char.isDigit
      if b.isEmpty then none else some (digitsToNat a, digitsToNat b)
    | _ => none

/-- JS `s.match(/(\d+)\s*\/\s*(\d+)/)` then `parseInt(m[1]) / parseInt(m[2])`
(the regex engine tries each start position left to right). -/
def findSlashFraction : Str → Option Q
  | [] => none
  | c :: rest =>
    match slashFractionAt (c :: rest) with
    | some ab => some (qNorm (ab.1 : Int) ab.2)
    | none => findSlashFraction rest

/-- First match of the regex `(\d+)\s+(\d+)\s*\/\s*(\d+)` starting exactly at
the front of `s`. -/
def mixedNumberAt (s : Str) : Option (Nat × Nat × Nat) :=
  let a := s.takeWhile Char.isDigit
  if a.isEmpty then none
  else
    let r1 := s.drop a.length
    let ws := r1.takeWhile isSpace
    if ws.isEmpty then none
    else
      let r2 := r1.drop ws.length
      let b := r2.takeWhile Char.isDigit
      if b.isEmpty then none
      else
        match (r2.drop b.length).dropWhile isSpace with
        | '/' :: r4 =>
          let c := (r4.dropWhile isSpace).takeWhile Char.isDigit
          if c.isEmpty then none else some (digitsToNat a, digitsToNat b, digitsToNat c)
        | _ => none

/-- JS `s.match(/(\d+)\s+(\d+)\s*\/\s*(\d+)/)` then `a + b / c`. -/
def findMixedNumber : Str → Option Q
  | [] => none
  | c :: rest =>
    match mixedNumberAt (c :: rest) with
    | some abc => some (qNorm ((abc.1 * abc.2.2 + abc.2.1 : Nat) : Int) abc.2.2)
    | none => findMixedNumber rest

/-- `parseHebrewNumber` from `src/lib/json-ld-parser.ts`: fraction-word
containment, then number-word equality, then `parseFloat`, then a slash
fraction, then a mixed number.  Because `parseFloat` accepts any digit-led
string, the last two branches are unreachable for digit-led input. -/
def parseHebrewNumber (text : Str) : Option Q :=
  let trimmed := toLowerStr (trim text)
  match hebrewFractionPairs.find? (fun p => containsSub trimmed p.1) with
  | some p => some p.2
  | none =>
    match hebrewNumberPairs.find? (fun p => trimmed == p.1) with
    | some p => some p.2
    | none =>
      match jsParseFloat trimmed with
      | some q => some q
      | none =>
        match findSlashFraction trimmed with
        | some q => some q
        | none => findMixedNumber trimmed

/-- `parseUnit` from `src/lib/json-ld-parser.ts`: Hebrew table first, then
the English table, both by substring containment on the lowercased text. -/
def parseUnit (text : Str) : Option UnitCode :=
  let trimmed := toLowerStr (trim text)
  match hebrewUnitPairs.find? (fun p => containsSub trimmed p.1) with
  | some p => some p.2
  | none =>
    match englishUnitPairs.find? (fun p => containsSub trimmed p.1) with
    | some p => some p.2
    | none => none

/-- The `englishUnits` array inside `parseIngredient`'s unit-removal step,
in source order. -/
def englishRemovalWords : List Str :=
  [("cup").toList, ("cups").toList, ("tablespoon").toList, ("tablespoons").toList,
   ("tbsp").toList, ("teaspoon").toList, ("teaspoons").toList, ("tsp").toList,
   ("gram").toList, ("grams").toList, ("g").toList,
   ("kilogram").toList, ("kilograms").toList, ("kg").toList,
   ("ml").toList, ("milliliter").toList, ("milliliters").toList,
   ("liter").toList, ("liters").toList, ("l").toList,
   ("ounce").toList, ("ounces").toList, ("oz").toList,
   ("pound").toList, ("pounds").toList, ("lb").toList, ("lbs").toList,
   ("piece").toList, ("pieces").toList, ("slice").toList, ("slices").toList,
   ("clove").toList, ("cloves").toList, ("bunch").toList, ("package").toList,
   ("can").toList, ("jar").toList, ("bag").toList, ("pinch").toList, ("dash").toList]

/-- The JS `\w` word-character class `[A-Za-z0-9_]`. -/
def isWordChar (c : Char) : Bool := c.isAlpha || c.isDigit || c == '_'

/-- A `\b` word boundary holds before the (letter-initial) pattern iff the
preceding character, when there is one, is not a word character. -/
def wordBoundaryOk (prev : Option Char) : Bool :=
  match prev with
  | none => true
  | some c => !(isWordChar c)

/-- A `\b` word boundary holds after the (letter-final) pattern iff the next
character, when there is one, is not a word character. -/
def afterBoundaryOk : Str → Bool
  | [] => true
  | c :: _ => !(isWordChar c)

/-- Try to match the regex `\bWORDs?\b` (case-insensitive) at the current
position of `s`, whose preceding character is `prev`; returns the match
length.  The greedy `s?` tries the longer alternative first, exactly as the
regex engine backtracks. -/
def tryUnitMatch (word : Str) (prev : Option Char) (s : Str) : Option Nat :=
  if wordBoundaryOk prev then
    let wl := word.length
    if ciStartsWith (word ++ [('s' : Char)]) s && afterBoundaryOk (s.drop (wl + 1)) then
      some (wl + 1)
    else if ciStartsWith word s && afterBoundaryOk (s.drop wl) then some wl
    else none
  else none

/-- Global replace-with-empty of `\bWORDs?\b` (flags `gi`): scan left to
right, drop each non-overlapping match, resume after it.  Fuel counts scan
steps; each step consumes at least one character, so `s.length` suffices. -/
def removeWordGlobalAux (word : Str) : Nat → Option Char → Str → Str
  | 0, _, s => s
  | _ + 1, _, [] => []
  | fuel + 1, prev, c :: rest =>
    match tryUnitMatch word prev (c :: rest) with
    | some k =>
      removeWordGlobalAux word fuel (((c :: rest).take k).getLast?) ((c :: rest).drop k)
    | none => c :: removeWordGlobalAux word fuel (some c) rest

/-- JS `item.replace(new RegExp('\\b' + word + 's?\\b', 'gi'), '')`. -/
def removeWordGlobal (word s : Str) : Str := removeWordGlobalAux word s.length none s

/-- The Hebrew half of `parseIngredient`'s unit removal: delete the first
`HEBREW_UNIT_MAP` key (in insertion order) contained in the item, then trim. -/
def removeHebrewUnit (item : Str) : Str :=
  match hebrewUnitPairs.find? (fun p => containsSub item p.1) with
  | some p => trim (removeFirst item p.1)
  | none => item

/-- The English half of `parseIngredient`'s unit removal: for each word of
`englishRemovalWords` in order, globally delete `\bwords?\b` and trim. -/
def removeEnglishUnits (item : Str) : Str :=
  englishRemovalWords.foldl (fun it w => trim (removeWordGlobal w it)) item

/-- First match of the regex `\(([^)]+)\)`: returns (whole match, group 1).
A match can only start at `'('`; `[^)]+` greedily takes the run up to the
next `')'`, which must be non-empty and must be followed by `')'`. -/
def commentMatch : Str → Option (Str × Str)
  | [] => none
  | c :: rest =>
    if c == '(' then
      let inner := rest.takeWhile (fun d => d != ')')
      if inner.length == 0 || inner.length == rest.length then commentMatch rest
      else some ('(' :: (inner ++ [')']), inner)
    else commentMatch rest

/-- The final clean-up step `^(של|of)\s+` removal: anchored at the start,
the connector word (the alternation tries `של` first) must be followed by at
least one whitespace character, and the whole prefix is removed. -/
def stripConnector (s : Str) : Str :=
  let tryWord : Str → Option Str := fun w =>
    if ciStartsWith w s then
      let rest := s.drop w.length
      let ws := rest.takeWhile isSpace
      if ws.isEmpty then none else some (rest.drop ws.length)
    else none
  match tryWord (("של").toList) with
  | some r => r
  | none =>
    match tryWord (("of").toList) with
    | some r => r
    | none => s

/-- The clean-up step `^\s*[-–—]\s*` removal (single, anchored match). -/
def stripLeadingDash (s : Str) : Str :=
  let ws := s.takeWhile isSpace
  match s.drop ws.length with
  | c :: rest =>
    if c == '-' || c == '–' || c == '—' then rest.dropWhile isSpace else s
  | [] => s

/-- The clean-up step `replace(/\s+/g, ' ')`: collapse each whitespace run
to a single space. -/
def collapseWsAux : Bool → Str → Str
  | _, [] => []
  | prevSpace, c :: rest =>
    if isSpace c then
      if prevSpace then collapseWsAux true rest
      else ' ' :: collapseWsAux true rest
    else c :: collapseWsAux false rest

def collapseWs (s : Str) : Str := collapseWsAux false s

/-- The final item clean-up chain of `parseIngredient`. -/
def cleanupItem (s : Str) : Str :=
  trim (collapseWs (stripLeadingDash (stripConnector s)))

/-- The character class `[\d\s/.]` of the leading numeral-run regex. -/
def numRunChar (c : Char) : Bool := c.isDigit || isSpace c || c == '/' || c == '.'

/-- The body of `parseIngredient` up to (but excluding) the final
empty-item fallback: comment extraction, Hebrew fraction words, leading
numeral run, unit detection and removal, item clean-up.  Returns the
cleaned item together with the quantity, unit and comment. -/
def parseIngredientParts (original : Str) : Str × Option Q × Option UnitCode × Option Str :=
  let cm := commentMatch original
  let comments : Option Str := cm.map (fun m => m.2)
  let item0 : Str :=
    match cm with
    | some m => trim (removeFirst original m.1)
    | none => original
  let fr := hebrewFractionPairs.find? (fun p => containsSub item0 p.1)
  let item1 : Str :=
    match fr with
    | some p => trim (removeFirst item0 p.1)
    | none => item0
  let qi : Option Q × Str :=
    match fr with
    | some p => (some p.2, item1)
    | none =>
      let run := item1.takeWhile numRunChar
      if run.isEmpty then (none, item1)
      else
        match parseHebrewNumber run with
        | some q => (some q, trim (item1.drop run.length))
        | none => (none, item1)
  let quantity := qi.1
  let item2 := qi.2
  let unit := parseUnit item2
  let item3 : Str :=
    match unit with
    | some _ => removeEnglishUnits (removeHebrewUnit item2)
    | none => item2
  (cleanupItem item3, quantity, unit, comments)

/-- `parseIngredient` from `src/lib/json-ld-parser.ts` (the spec calls it
`parseIngredientLine`): runs `parseIngredientParts` on the trimmed line and
falls back to the full original line when the cleaned item is empty. -/
def parseIngredient (ingredientStr : Str) : Ingredient :=
  let original := trim ingredientStr
  let parts := parseIngredientParts original
  { original := original
    item := if parts.1.isEmpty then original else parts.1
    quantity := parts.2.1
    unit := parts.2.2.1
    comments := parts.2.2.2 }

/-! `formatQuantity` from `src/lib/format.ts`. -/

/-- The decimal digit character for `n` (`n ≥ 9` clamps, as callers only
pass residues below 10). -/
def digitChar : Nat → Char
  | 0 => '0' | 1 => '1' | 2 => '2' | 3 => '3' | 4 => '4'
  | 5 => '5' | 6 => '6' | 7 => '7' | 8 => '8' | _ => '9'

/-- Decimal rendering of a natural number, with fuel for kernel reduction
(`n / 10` strictly decreases, so fuel `n + 1` suffices). -/
def natToStrAux : Nat → Nat → Str
  | 0, _ => []
  | fuel + 1, n =>
    if n < 10 then [digitChar n] else natToStrAux fuel (n / 10) ++ [digitChar (n % 10)]

def natToStr (n : Nat) : Str := natToStrAux (n + 1) n

/-- JS `Number.prototype.toString` on an integral value. -/
def intToStr (i : Int) : Str := if i < 0 then '-' :: natToStr i.natAbs else natToStr i.natAbs

/-- JS `q.toFixed(1).replace(/\.0$/, '')`: round to one decimal place
(ties towards the larger value, per the `toFixed` specification) and strip a
trailing `.0`.  The rounding acts on the exact rational; the double-rounding
a binary float introduces for non-dyadic decimals is not modelled, and no
claim depends on it. -/
def jsToFixed1 (q : Q) : Str :=
  let n : Int := Int.fdiv (20 * q.num + q.den) (2 * q.den)
  let m : Nat := n.natAbs
  let sgn : Str := if n < 0 then ['-'] else []
  if m % 10 == 0 then sgn ++ natToStr (m / 10)
  else sgn ++ natToStr (m / 10) ++ ('.' :: [digitChar (m % 10)])

/-- The `// Regular numbers` tail of `formatQuantity`. -/
def defaultNumFmt (q : Q) : Str :=
  if qIsInt q then intToStr q.num else jsToFixed1 q

/-- `formatQuantity` from `src/lib/format.ts`: glyphs for the five common
fractions (plus the `0.33` / `0.66` spellings), mixed-number glyphs above 1,
then the plain decimal fallback. -/
def formatQuantity : Option Q → Str
  | none => []
  | some q =>
    if q = ⟨1, 4⟩ then ['¼']
    else if q = ⟨333, 1000⟩ ∨ q = ⟨33, 100⟩ then ['⅓']
    else if q = ⟨1, 2⟩ then ['½']
    else if q = ⟨667, 1000⟩ ∨ q = ⟨66, 100⟩ then ['⅔']
    else if q = ⟨3, 4⟩ then ['¾']
    else
      let whole := qFloor q
      let frac := qSub q ⟨whole, 1⟩
      let mixed : Option Str :=
        if qLt ⟨1, 1⟩ q then
          if frac = ⟨1, 4⟩ then some (intToStr whole ++ ['¼'])
          else if frac = ⟨1, 2⟩ then some (intToStr whole ++ ['½'])
          else if frac = ⟨3, 4⟩ then some (intToStr whole ++ ['¾'])
          else none
        else none
      match mixed with
      | some s => s
      | none => defaultNumFmt q

/-- Characters a plain decimal rendering may contain. -/
def isPlainChar (c : Char) : Bool := c.isDigit || c == '.' || c == '-'

/-- A string is a plain decimal when it uses only digits, a point, a sign. -/
def isPlainDecimal (s : Str) : Bool := s.all isPlainChar

/-- The quantities for which `formatQuantity` renders a fraction glyph
(mirrors its branch conditions exactly). -/
def isGlyphQuantity (q : Q) : Bool :=
  decide (q = ⟨1, 4⟩) || decide (q = ⟨333, 1000⟩ ∨ q = ⟨33, 100⟩) ||
  decide (q = ⟨1, 2⟩) || decide (q = ⟨667, 1000⟩ ∨ q = ⟨66, 100⟩) ||
  decide (q = ⟨3, 4⟩) ||
  (qLt ⟨1, 1⟩ q &&
    (decide (qSub q ⟨qFloor q, 1⟩ = ⟨1, 4⟩) || decide (qSub q ⟨qFloor q, 1⟩ = ⟨1, 2⟩) ||
     decide (qSub q ⟨qFloor q, 1⟩ = ⟨3, 4⟩)))

/-! The `Recipe` data model from `src/schemas/recipe.ts`, the AI parser
from `src/services/llm-parser.ts`, and the orchestrator from
`src/services/extractor.ts`. -/

inductive Language
  | he | en | mixed
deriving DecidableEq

inductive ExtractionMethod
  | jsonLd | llm | hybrid
deriving DecidableEq

inductive Difficulty
  | easy | medium | hard | unknown
deriving DecidableEq

inductive Kashrut
  | parve | dairy | meat | not_kosher | unknown
deriving DecidableEq

structure RecipeMeta where
  prepTime : Option Q := none
  cookTime : Option Q := none
  totalTime : Option Q := none
  servings : Option Q := none
  difficulty : Difficulty := Difficulty.unknown
  cuisine : Option Str := none
  category : Option Str := none
  dietary : List Str := []
deriving DecidableEq

structure Nutrition where
  calories : Option Q := none
  protein : Option Q := none
  carbohydrates : Option Q := none
  fat : Option Q := none
  fiber : Option Q := none
  sodium : Option Q := none
deriving DecidableEq

structure Recipe where
  title : Str
  description : Option Str
  language : Language
  sourceUrl : Str
  imageUrl : Option Str
  author : Option Str
  datePublished : Option Str
  ingredients : List Ingredient
  steps : List Str
  tips : List Str
  meta : RecipeMeta
  nutrition : Option Nutrition
  extractionMethod : ExtractionMethod
  confidence : Q
  kashrut : Option Kashrut := none
  rawText : Option Str := none
deriving DecidableEq

/-- The TypeScript `Partial<Recipe>` produced by `parseRecipeFromHtml`:
every field may be absent.  `undefined` and `null` are collapsed into
`none`, which is faithful because the modelled code only inspects these
fields through truthiness (`||`, `?.`) and element access. -/
structure PRecipe where
  title : Option Str := none
  description : Option Str := none
  language : Option Language := none
  sourceUrl : Option Str := none
  imageUrl : Option Str := none
  author : Option Str := none
  datePublished : Option Str := none
  ingredients : Option (List Ingredient) := none
  steps : Option (List Str) := none
  tips : Option (List Str) := none
  meta : Option RecipeMeta := none
  nutrition : Option Nutrition := none
  extractionMethod : Option ExtractionMethod := none
  confidence : Option Q := none
  kashrut : Option Kashrut := none
  rawText : Option Str := none
deriving DecidableEq

/-- JS truthiness of a possibly-absent string: `undefined`, `null` and the
empty string are falsy. -/
def strTruthy : Option Str → Bool
  | some s => !(s.isEmpty)
  | none => false

/-- `x || null` on a possibly-absent string. -/
def jsOrNullStr (o : Option Str) : Option Str := if strTruthy o then o else none

/-- `isValidRecipe` from `src/lib/json-ld-parser.ts`: non-empty title,
at least one ingredient, at least one step. -/
def isValidRecipe : Option PRecipe → Bool
  | none => false
  | some r =>
    strTruthy r.title &&
    (match r.ingredients with
     | some lst => decide (0 < lst.length)
     | none => false) &&
    (match r.steps with
     | some lst => decide (0 < lst.length)
     | none => false)

/-- The `meta` object of the schema-constrained generation output
(`LLMRecipeSchema.meta`). -/
structure LLMMeta where
  prepTime : Option Q := none
  cookTime : Option Q := none
  totalTime : Option Q := none
  servings : Option Q := none
  difficulty : Difficulty := Difficulty.unknown
  cuisine : Option Str := none
  category : Option Str := none
  dietary : List Str := []
deriving DecidableEq

/-- The schema-constrained generation output (`LLMRecipeSchema`): schema
violations never reach this type — the generation call fails instead, which
is modelled by `Except.error`. -/
structure LLMRecipe where
  title : Str := []
  description : Option Str := none
  language : Language := Language.en
  ingredients : List Ingredient := []
  steps : List Str := []
  tips : List Str := []
  kashrut : Kashrut := Kashrut.unknown
  meta : LLMMeta := {}
deriving DecidableEq

/-- The input-truncation step of `parseWithLLM` (`maxTextLength = 15000`). -/
def truncateText (rawText : Str) : Str :=
  if 15000 < rawText.length then
    rawText.take 15000 ++ ("\n\n[Content truncated...]").toList
  else rawText

/-- `parseWithLLM` from `src/services/llm-parser.ts`.  The outcome of the
schema-constrained `generateObject` call is the explicit input `genResult`;
on failure the function rethrows with the `Failed to parse recipe with LLM:`
prefix, and on success it assembles the `Recipe` exactly as the source does:
image/author/date/nutrition come from the partial data only, method and
confidence are `hybrid`/`0.85` when partial data was passed and `llm`/`0.75`
otherwise. -/
def parseWithLLM (rawText sourceUrl : Str) (pd : Option PRecipe)
    (genResult : Except Str LLMRecipe) : Except Str Recipe :=
  let truncatedText := truncateText rawText
  match genResult with
  | Except.error e => Except.error (("Failed to parse recipe with LLM: ").toList ++ e)
  | Except.ok object =>
    Except.ok
      { title := object.title
        description := object.description
        language := object.language
        sourceUrl := sourceUrl
        imageUrl := jsOrNullStr (pd.bind PRecipe.imageUrl)
        author := jsOrNullStr (pd.bind PRecipe.author)
        datePublished := jsOrNullStr (pd.bind PRecipe.datePublished)
        ingredients := object.ingredients
        steps := object.steps
        tips := object.tips
        meta :=
          { prepTime := object.meta.prepTime
            cookTime := object.meta.cookTime
            totalTime := object.meta.totalTime
            servings := object.meta.servings
            difficulty := object.meta.difficulty
            cuisine := object.meta.cuisine
            category := object.meta.category
            dietary := object.meta.dietary }
        nutrition := pd.bind PRecipe.nutrition
        extractionMethod := if pd.isSome then ExtractionMethod.hybrid else ExtractionMethod.llm
        confidence := if pd.isSome then ⟨17, 20⟩ else ⟨3, 4⟩
        kashrut := some object.kashrut
        rawText := some truncatedText }

/-- `refineRecipe` from `src/services/llm-parser.ts`: with a title and at
least two ingredients and two steps the partial is passed to the model for
refinement, otherwise a full extraction runs with no partial data. -/
def refineRecipe (recipe : PRecipe) (rawText sourceUrl : Str)
    (genResult : Except Str LLMRecipe) : Except Str Recipe :=
  let hasGoodData :=
    strTruthy recipe.title &&
    (match recipe.ingredients with
     | some lst => decide (2 ≤ lst.length)
     | none => false) &&
    (match recipe.steps with
     | some lst => decide (2 ≤ lst.length)
     | none => false)
  if hasGoodData then parseWithLLM rawText sourceUrl (some recipe) genResult
  else parseWithLLM rawText sourceUrl none genResult

/-- `FetchResult` (only the fields the orchestrator reads). -/
structure FetchResult where
  html : Str := []
  cleanedText : Str := []
deriving DecidableEq

/-- `ExtractionResult` from `src/schemas/recipe.ts`.  Wall-clock processing
time is not modelled and is fixed at `0`. -/
structure ExtractionResult where
  success : Bool
  recipe : Option Recipe
  error : Option Str
  warnings : List Str
  processingTimeMs : Q := ⟨0, 1⟩
deriving DecidableEq

/-- The environment of one `RecipeExtractor.extract` run: the outcome of
each external effect the orchestrator consults, in the order the code
consults them.  `urlValid` is whether `new URL(url)` succeeds, `fetch` the
`smartFetch` outcome, `structured` the `parseRecipeFromHtml` return value,
`genResult` the outcome of the (at most one) generation call, and
`htmlImage` the result of the `extractImageFromHtml` regex scan. -/
structure ExtractEnv where
  urlValid : Bool := true
  fetch : Except Str FetchResult := Except.ok {}
  structured : Option PRecipe := none
  useLlm : Bool := true
  hasKey : Bool := true
  genResult : Except Str LLMRecipe := Except.ok {}
  htmlImage : Option Str := none

def defaultRecipeMeta : RecipeMeta := {}

/-- The structured-only `Recipe` the orchestrator assembles when it keeps
the JSON-LD data without (successful) refinement. -/
def structuredRecipe (p : PRecipe) (url : Str) : Recipe :=
  { title :=
      match p.title with
      | some t => if t.isEmpty then ("Untitled Recipe").toList else t
      | none => ("Untitled Recipe").toList
    description := jsOrNullStr p.description
    language := p.language.getD Language.en
    sourceUrl := url
    imageUrl := jsOrNullStr p.imageUrl
    author := jsOrNullStr p.author
    datePublished := jsOrNullStr p.datePublished
    ingredients := p.ingredients.getD []
    steps := p.steps.getD []
    tips := p.tips.getD []
    meta := p.meta.getD defaultRecipeMeta
    nutrition := p.nutrition
    extractionMethod := ExtractionMethod.jsonLd
    confidence := ⟨9, 10⟩
    kashrut := none
    rawText := none }

def failRes (msg : Str) (warnings : List Str) : ExtractionResult :=
  { success := false, recipe := none, error := some msg, warnings := warnings }

def okRes (r : Recipe) (warnings : List Str) : ExtractionResult :=
  { success := true, recipe := some r, error := none, warnings := warnings }

/-- Step 2 of `extract`: the LLM fallback taken when no valid structured
data was found.  Note the source passes `jsonLdRecipe || undefined`, so an
*invalid* partial still reaches `parseWithLLM` as partial data. -/
def llmFallback (env : ExtractEnv) (url : Str) (fr : FetchResult) : ExtractionResult :=
  if !env.useLlm then
    failRes (("No structured data found and LLM extraction is disabled").toList) []
  else if !env.hasKey then
    failRes (("No structured data found and ANTHROPIC_API_KEY is not set").toList) []
  else
    match parseWithLLM fr.cleanedText url env.structured env.genResult with
    | Except.ok recipe =>
      let recipe2 :=
        if strTruthy recipe.imageUrl then recipe
        else { recipe with imageUrl := env.htmlImage }
      okRes recipe2 []
    | Except.error m => failRes (("LLM extraction failed: ").toList ++ m) []

/-- `RecipeExtractor.extract` from `src/services/extractor.ts`. -/
def extract (env : ExtractEnv) (url : Str) : ExtractionResult :=
  if !env.urlValid then failRes (("Invalid URL provided").toList) []
  else
    match env.fetch with
    | Except.error m => failRes (("Failed to fetch URL: ").toList ++ m) []
    | Except.ok fr =>
      match env.structured with
      | some p =>
        if isValidRecipe (some p) then
          if env.useLlm && env.hasKey then
            match refineRecipe p fr.cleanedText url env.genResult with
            | Except.ok refined => okRes refined []
            | Except.error m =>
              okRes (structuredRecipe p url) [("LLM refinement failed: ").toList ++ m]
          else okRes (structuredRecipe p url) []
        else llmFallback env url fr
      | none => llmFallback env url fr

/-! Concrete inputs used by witnesses and counterexamples. -/

/-- A one-line ingredient as parsed from `"קמח"`. -/
def wIngredient : Ingredient :=
  { original := ("קמח").toList, item := ("קמח").toList,
    quantity := none, unit := none, comments := none }

/-- A structured partial record with a non-empty title, exactly one
ingredient and exactly one step. -/
def wStructured : PRecipe :=
  { title := some (("עוגה").toList)
    ingredients := some [wIngredient]
    steps := some [("לערבב").toList] }

/-- An extraction environment: valid URL, successful fetch, valid
structured data, AI enabled, key present, failing generation call. -/
def c2Env : ExtractEnv :=
  { urlValid := true, fetch := Except.ok {}, structured := some wStructured,
    useLlm := true, hasKey := true, genResult := Except.error (("boom").toList) }

/-- The recipe `parseWithLLM "t" "u" none (ok {})` assembles. -/
def c6RecipeFull : Recipe :=
  { title := [], description := none, language := Language.en,
    sourceUrl := ("u").toList, imageUrl := none, author := none,
    datePublished := none, ingredients := [], steps := [], tips := [],
    meta := {}, nutrition := none,
    extractionMethod := ExtractionMethod.llm, confidence := ⟨3, 4⟩,
    kashrut := some Kashrut.unknown, rawText := some (("t").toList) }

/-- The recipe `parseWithLLM "t" "u" (some wStructured) (ok {})` assembles. -/
def c6RecipeHyb : Recipe :=
  { title := [], description := none, language := Language.en,
    sourceUrl := ("u").toList, imageUrl := none, author := none,
    datePublished := none, ingredients := [], steps := [], tips := [],
    meta := {}, nutrition := none,
    extractionMethod := ExtractionMethod.hybrid, confidence := ⟨17, 20⟩,
    kashrut := some Kashrut.unknown, rawText := some (("t").toList) }

/-- The recipe `refineRecipe wStructured "r10" "u10" (ok {})` assembles
(the full-extraction downgrade path). -/
def c10Recipe : Recipe :=
  { title := [], description := none, language := Language.en,
    sourceUrl := ("u10").toList, imageUrl := none, author := none,
    datePublished := none, ingredients := [], steps := [], tips := [],
    meta := {}, nutrition := none,
    extractionMethod := ExtractionMethod.llm, confidence := ⟨3, 4⟩,
    kashrut := some Kashrut.unknown, rawText := some (("r10").toList) }

/-- The exact conditions under which one `extract` run fails: invalid URL;
fetch error; or no valid structured data combined with AI disabled, missing
key, or a failing generation call. -/
def failureCond (env : ExtractEnv) : Bool :=
  !env.urlValid ||
  (match env.fetch with
   | Except.error _ => true
   | Except.ok _ =>
     !(isValidRecipe env.structured) &&
     (!env.useLlm || !env.hasKey ||
      (match env.genResult with
       | Except.error _ => true
       | Except.ok _ => false)))

/-! ## Claims -/

/-- Claim C1, counterexample: the claim says `isValidRecipe` returns
`false` for a partial record with a non-empty title, exactly 1 ingredient
and exactly 1 step; on the code it returns `true` for the concrete record
`wStructured` (title `"עוגה"`, one ingredient, one step). -/
theorem c1_counterexample : isValidRecipe (some wStructured) = true := by decide

/-- Claim C1 (amended): `isValidRecipe` returns `true` for every partial
record with a non-empty title, exactly 1 ingredient and exactly 1 step —
validity requires at least one of each, not more than one.  (The `≥ 2`
thresholds live in `refineRecipe`'s `hasGoodData` check, which chooses
between refinement and full extraction, not in validity.) -/
theorem c1_amended (t : Str) (i : Ingredient) (s : Str) (h : t ≠ []) :
    isValidRecipe (some { title := some t, ingredients := some [i], steps := some [s] }) =
      true := by
  cases t with
  | nil => exact absurd rfl h
  | cons a rest => simp [isValidRecipe, strTruthy]

/-- Claim C1 witness: `c1_amended` applied at a concrete record. -/
theorem c1_amended_witness :
    (("ב").toList : Str) ≠ [] ∧
    isValidRecipe (some { title := some (("ב").toList),
                          ingredients := some [wIngredient],
                          steps := some [("ג").toList] }) = true :=
  ⟨by decide, c1_amended (("ב").toList) wIngredient (("ג").toList) (by decide)⟩

/-- Claim C3, counterexample: the claim says
`parseIngredientLine "2 כוסות קמח" = {item: "קמח", quantity: 2, unit: cup,
comments: null}`; on the code the result differs (the item keeps the
residue of the plural unit word). -/
theorem c3_counterexample :
    ¬ (parseIngredient (("2 כוסות קמח").toList) =
        { original := ("2 כוסות קמח").toList, item := ("קמח").toList,
          quantity := some ⟨2, 1⟩, unit := some UnitCode.cup, comments := none }) := by
  decide

/-- Claim C3 (amended): `parseIngredientLine "2 כוסות קמח"` returns
quantity 2, unit `cup` and no comment as claimed, but the item is
`"ות קמח"`: the unit-removal step deletes the first `HEBREW_UNIT_MAP` key
contained in the text, which is the singular `"כוס"` inside the plural
`"כוסות"`, leaving the residue `"ות"` in the item. -/
theorem c3_amended :
    parseIngredient (("2 כוסות קמח").toList) =
      { original := ("2 כוסות קמח").toList, item := ("ות קמח").toList,
        quantity := some ⟨2, 1⟩, unit := some UnitCode.cup, comments := none } := by
  decide

/-- Claim C4, counterexample: the claim says every entry of the Hebrew
fraction table yields its tabled decimal, in particular
`"שני שליש כוס קמח"` should give quantity 0.667; on the code the earlier
table entry `"שליש"` is found first by substring containment, so the
quantity is 0.333. -/
theorem c4_counterexample :
    ¬ ((parseIngredient (("שני שליש כוס קמח").toList)).quantity = some ⟨667, 1000⟩) := by
  decide

/-- Claim C4 (amended): for a line `"<word> כוס קמח"`, the fraction-word
match is the *earliest entry in table insertion order* whose word is
contained in the line (not the longest match).  The four single-word
entries therefore yield their tabled values, but `"שני שליש"` yields 0.333
(via the earlier entry `"שליש"`) and `"שלושת רבעי"` yields 0.25 (via the
earlier entry `"רבע"`). -/
theorem c4_amended :
    (parseIngredient (("חצי כוס קמח").toList)).quantity = some ⟨1, 2⟩ ∧
    (parseIngredient (("רבע כוס קמח").toList)).quantity = some ⟨1, 4⟩ ∧
    (parseIngredient (("שליש כוס קמח").toList)).quantity = some ⟨333, 1000⟩ ∧
    (parseIngredient (("שני שליש כוס קמח").toList)).quantity = some ⟨333, 1000⟩ ∧
    (parseIngredient (("שלושת רבעי כוס קמח").toList)).quantity = some ⟨1, 4⟩ ∧
    (parseIngredient (("שמינית כוס קמח").toList)).quantity = some ⟨1, 8⟩ := by
  refine ⟨by decide, by decide, by decide, by decide, by decide, by decide⟩

/-- Claim C5 (code bug): the claim (and the surrounding code's own
comments and prompt) intend `"1/2 cup sugar"` to get quantity 0.5 and
`"1 1/2 cups flour"` to get 1.5, but `parseFloat` accepts the leading
digits of any digit-led numeral run (`parseFloat("1/2") = 1`), so the
dedicated slash-fraction and mixed-number branches of `parseHebrewNumber`
are unreachable and both inputs get quantity 1.  The last conjunct shows
the dead slash-fraction rule would indeed have produced 0.5. -/
theorem c5_code_bug :
    (parseIngredient (("1/2 cup sugar").toList)).quantity = some ⟨1, 1⟩ ∧
    (parseIngredient (("1 1/2 cups flour").toList)).quantity = some ⟨1, 1⟩ ∧
    parseHebrewNumber (("1/2").toList) = some ⟨1, 1⟩ ∧
    findSlashFraction (("1/2").toList) = some ⟨1, 2⟩ := by
  refine ⟨by decide, by decide, by decide, by decide⟩

/-- Claim C9: for every input line whose trimmed text is non-empty, the
returned ingredient's `item` is non-empty — when the clean-up leaves
nothing, the item falls back to the full original (trimmed) line. -/
theorem c9_item_nonempty (line : Str) (h : trim line ≠ []) :
    (parseIngredient line).item ≠ [] := by
  simp only [parseIngredient]
  split
  · exact h
  · next h2 => simpa using h2

/-- Claim C9 witness: `c9_item_nonempty` at the concrete line `"מלח"`. -/
theorem c9_witness :
    trim (("מלח").toList) ≠ [] ∧ (parseIngredient (("מלח").toList)).item ≠ [] :=
  ⟨by decide, c9_item_nonempty (("מלח").toList) (by decide)⟩

/-- Claim C6: `parseWithLLM` tags every successful full extraction (no
partial data) with confidence 0.75 and the full-AI method tag (spelled
`llm` in the code's `ExtractionMethod` enum), and every successful
refinement of a passed-in structured partial with confidence 0.85 and the
`hybrid` tag. -/
theorem c6_confidence_tags (raw url : Str) (p : PRecipe) (obj : LLMRecipe)
    (rFull rHyb : Recipe) :
    (parseWithLLM raw url none (Except.ok obj) = Except.ok rFull →
      rFull.confidence = ⟨3, 4⟩ ∧ rFull.extractionMethod = ExtractionMethod.llm) ∧
    (parseWithLLM raw url (some p) (Except.ok obj) = Except.ok rHyb →
      rHyb.confidence = ⟨17, 20⟩ ∧ rHyb.extractionMethod = ExtractionMethod.hybrid) := by
  constructor
  · intro h
    simp only [parseWithLLM, Except.ok.injEq] at h
    subst h
    exact ⟨rfl, rfl⟩
  · intro h
    simp only [parseWithLLM, Except.ok.injEq] at h
    subst h
    exact ⟨rfl, rfl⟩

/-- Claim C6 witness: `c6_confidence_tags` at concrete inputs, both modes. -/
theorem c6_witness :
    (c6RecipeFull.confidence = ⟨3, 4⟩ ∧
      c6RecipeFull.extractionMethod = ExtractionMethod.llm) ∧
    (c6RecipeHyb.confidence = ⟨17, 20⟩ ∧
      c6RecipeHyb.extractionMethod = ExtractionMethod.hybrid) :=
  ⟨(c6_confidence_tags (("t").toList) (("u").toList) wStructured {}
      c6RecipeFull c6RecipeHyb).1 rfl,
   (c6_confidence_tags (("t").toList) (("u").toList) wStructured {}
      c6RecipeFull c6RecipeHyb).2 rfl⟩

/-- Claim C10: when a structured partial passes `isValidRecipe` but has
fewer than 2 ingredients or fewer than 2 steps, `refineRecipe` performs a
full extraction with no partial data: the result carries the
full-extraction tag `llm` and confidence 0.75, and the partial's
`imageUrl`, `author`, `datePublished` and `nutrition` are not carried into
the result. -/
theorem c10_refine_downgrade (p : PRecipe) (raw url : Str) (obj : LLMRecipe) (r : Recipe)
    (hvalid : isValidRecipe (some p) = true)
    (hsmall : (p.ingredients.getD []).length < 2 ∨ (p.steps.getD []).length < 2)
    (hrun : refineRecipe p raw url (Except.ok obj) = Except.ok r) :
    r.extractionMethod = ExtractionMethod.llm ∧ r.confidence = ⟨3, 4⟩ ∧
    r.imageUrl = none ∧ r.author = none ∧ r.datePublished = none ∧
    r.nutrition = none := by
  have hgd : (strTruthy p.title &&
      (match p.ingredients with
       | some lst => decide (2 ≤ lst.length)
       | none => false) &&
      (match p.steps with
       | some lst => decide (2 ≤ lst.length)
       | none => false)) = false := by
    rcases hsmall with hs | hs
    · cases hi : p.ingredients with
      | none => simp [hi]
      | some lst =>
        rw [hi] at hs
        simp only [Option.getD_some] at hs
        have hlt : ¬ (2 ≤ lst.length) := by omega
        simp [hi, hlt]
    · cases hi : p.steps with
      | none => simp [hi]
      | some lst =>
        rw [hi] at hs
        simp only [Option.getD_some] at hs
        have hlt : ¬ (2 ≤ lst.length) := by omega
        simp [hi, hlt]
  simp only [refineRecipe, hgd, if_false, Bool.false_eq_true] at hrun
  simp only [parseWithLLM, Except.ok.injEq] at hrun
  subst hrun
  exact ⟨rfl, rfl, rfl, rfl, rfl, rfl⟩

/-- Claim C10 witness: `c10_refine_downgrade` on `wStructured` (valid, but
only one ingredient and one step). -/
theorem c10_witness :
    c10Recipe.extractionMethod = ExtractionMethod.llm ∧ c10Recipe.confidence = ⟨3, 4⟩ ∧
    c10Recipe.imageUrl = none ∧ c10Recipe.author = none ∧
    c10Recipe.datePublished = none ∧ c10Recipe.nutrition = none :=
  c10_refine_downgrade wStructured (("r10").toList) (("u10").toList) {} c10Recipe
    (by decide) (Or.inl (by decide)) rfl

/-! Helper lemmas: the plain-decimal fallback of `formatQuantity` only
ever emits digits, a decimal point, or a sign. -/

theorem digitChar_plain (n : Nat) : isPlainChar (digitChar n) = true := by
  unfold digitChar
  split <;> decide

theorem natToStrAux_plain (fuel : Nat) :
    ∀ n, isPlainDecimal (natToStrAux fuel n) = true := by
  induction fuel with
  | zero => intro n; rfl
  | succ f ih =>
    intro n
    unfold natToStrAux
    split
    · simp [isPlainDecimal, digitChar_plain]
    · have h1 := ih (n / 10)
      simp only [isPlainDecimal] at h1 ⊢
      simp [List.all_append, h1, digitChar_plain]

theorem natToStr_plain (n : Nat) : isPlainDecimal (natToStr n) = true :=
  natToStrAux_plain _ _

theorem intToStr_plain (i : Int) : isPlainDecimal (intToStr i) = true := by
  unfold intToStr
  split
  · have h1 := natToStr_plain i.natAbs
    simp only [isPlainDecimal] at h1 ⊢
    simp [h1]
    decide
  · exact natToStr_plain _

theorem jsToFixed1_plain (q : Q) : isPlainDecimal (jsToFixed1 q) = true := by
  have hd := natToStr_plain ((Int.fdiv (20 * q.num + q.den) (2 * q.den)).natAbs / 10)
  simp only [isPlainDecimal] at hd
  simp only [jsToFixed1]
  split <;> split <;>
    simp [isPlainDecimal, List.all_append, hd, digitChar_plain] <;> decide

theorem defaultNumFmt_plain (q : Q) : isPlainDecimal (defaultNumFmt q) = true := by
  unfold defaultNumFmt
  split
  · exact intToStr_plain _
  · exact jsToFixed1_plain _

/-- Claim C8, counterexample: `"2.5 cups flour"` yields quantity 2.5 —
a value outside the five listed fractions — and `formatQuantity 2.5` is the
mixed-number glyph string `"2½"`, not a plain decimal string.  So not every
other parser-produced quantity falls back to a plain decimal. -/
theorem c8_counterexample :
    (parseIngredient (("2.5 cups flour").toList)).quantity = some ⟨5, 2⟩ ∧
    formatQuantity (some ⟨5, 2⟩) = ['2', '½'] ∧
    isPlainDecimal ['2', '½'] = false := by
  refine ⟨by decide, by decide, by decide⟩

/-- Claim C8 (amended): `formatQuantity` renders a fraction glyph for each
quantity in {0.25, 0.333, 0.5, 0.667, 0.75}, and falls back to a plain
decimal string (digits, point, sign only) for every quantity outside the
glyph set — which, beyond the five listed values, also contains 0.33, 0.66,
and every mixed number above 1 with fractional part 1/4, 1/2 or 3/4. -/
theorem c8_amended :
    (formatQuantity (some ⟨1, 4⟩) = ['¼'] ∧ formatQuantity (some ⟨333, 1000⟩) = ['⅓'] ∧
     formatQuantity (some ⟨1, 2⟩) = ['½'] ∧ formatQuantity (some ⟨667, 1000⟩) = ['⅔'] ∧
     formatQuantity (some ⟨3, 4⟩) = ['¾']) ∧
    ∀ q : Q, isGlyphQuantity q = false →
      isPlainDecimal (formatQuantity (some q)) = true := by
  refine ⟨⟨by decide, by decide, by decide, by decide, by decide⟩, ?_⟩
  intro q h
  simp only [isGlyphQuantity, Bool.or_eq_false_iff, Bool.and_eq_false_iff,
    decide_eq_false_iff_not] at h
  obtain ⟨⟨⟨⟨⟨h1, h2⟩, h3⟩, h4⟩, h5⟩, h6⟩ := h
  simp only [formatQuantity]
  rw [if_neg h1, if_neg h2, if_neg h3, if_neg h4, if_neg h5]
  rcases h6 with h6 | h6
  · rw [if_neg (by simp [h6])]
    exact defaultNumFmt_plain q
  · obtain ⟨⟨h7, h8⟩, h9⟩ := h6
    by_cases hq : qLt ⟨1, 1⟩ q = true
    · rw [if_pos hq, if_neg h7, if_neg h8, if_neg h9]
      exact defaultNumFmt_plain q
    · rw [if_neg hq]
      exact defaultNumFmt_plain q

/-- Claim C8 witness: `c8_amended` at the parser-producible quantity 1/8
(e.g. `"שמינית"`), which is outside the glyph set and renders as `"0.1"`. -/
theorem c8_witness :
    isGlyphQuantity ⟨1, 8⟩ = false ∧
    isPlainDecimal (formatQuantity (some ⟨1, 8⟩)) = true :=
  ⟨by decide, c8_amended.2 ⟨1, 8⟩ (by decide)⟩

/-- Claim C2: whenever the structured parse produced a record satisfying
`isValidRecipe` and the AI refinement call fails, `extract` still returns a
successful result whose recipe is the structured-only record (method
`jsonLd`, confidence 0.9) with the refinement-failure warning appended;
the structured record is never discarded. -/
theorem c2_structured_floor (env : ExtractEnv) (url : Str) (p : PRecipe)
    (fr : FetchResult) (e : Str)
    (h1 : env.urlValid = true) (h2 : env.fetch = Except.ok fr)
    (h3 : env.structured = some p) (h4 : isValidRecipe (some p) = true)
    (h5 : env.useLlm = true) (h6 : env.hasKey = true)
    (h7 : env.genResult = Except.error e) :
    extract env url =
      okRes (structuredRecipe p url)
        [("LLM refinement failed: Failed to parse recipe with LLM: ").toList ++ e] ∧
    (structuredRecipe p url).extractionMethod = ExtractionMethod.jsonLd ∧
    (structuredRecipe p url).confidence = ⟨9, 10⟩ := by
  refine ⟨?_, rfl, rfl⟩
  have hfuse : ((("LLM refinement failed: ").toList : Str) ++
      ("Failed to parse recipe with LLM: ").toList) =
      ("LLM refinement failed: Failed to parse recipe with LLM: ").toList := by decide
  simp only [extract, h1, h2, h3, h4, h5, h6, h7, Bool.not_true, Bool.and_self,
    Bool.false_eq_true, if_false, if_true, refineRecipe, parseWithLLM, ite_self]
  rw [← List.append_assoc, hfuse]

/-- Claim C2 witness: `c2_structured_floor` on the concrete environment
`c2Env` (valid structured data, refinement fails with `"boom"`). -/
theorem c2_witness :
    extract c2Env (("u").toList) =
      okRes (structuredRecipe wStructured (("u").toList))
        [("LLM refinement failed: Failed to parse recipe with LLM: ").toList ++
          ("boom").toList] ∧
    (structuredRecipe wStructured (("u").toList)).extractionMethod =
      ExtractionMethod.jsonLd ∧
    (structuredRecipe wStructured (("u").toList)).confidence = ⟨9, 10⟩ :=
  c2_structured_floor c2Env (("u").toList) wStructured {} (("boom").toList)
    rfl rfl rfl (by decide) rfl rfl rfl

/-- Claim C7: `extract` always returns a well-formed result — it fails
exactly under `failureCond` (invalid URL; fetch error; or no valid
structured data combined with AI disabled, missing key, or a failing
generation call), its recipe is present exactly on success, and its error
message is present exactly on failure. -/
theorem c7_error_handling (env : ExtractEnv) (url : Str) :
    (extract env url).success = !(failureCond env) ∧
    (extract env url).recipe.isSome = (extract env url).success ∧
    (extract env url).error.isSome = !((extract env url).success) := by
  obtain ⟨uv, fe, st, ul, hk, gr, hi⟩ := env
  cases uv with
  | false => simp [extract, failureCond, failRes]
  | true =>
    cases fe with
    | error m => simp [extract, failureCond, failRes]
    | ok fr =>
      cases st with
      | none =>
        cases ul <;> cases hk <;> cases gr <;>
          simp [extract, llmFallback, failureCond, failRes, okRes, parseWithLLM,
            isValidRecipe]
      | some p =>
        by_cases hv : isValidRecipe (some p) = true
        · cases ul <;> cases hk <;> cases gr <;>
            simp [extract, failureCond, hv, failRes, okRes, refineRecipe,
              parseWithLLM] <;>
            try (split <;> simp [okRes])
        · have hv2 : isValidRecipe (some p) = false := by
            revert hv
            cases isValidRecipe (some p) <;> simp
          cases ul <;> cases hk <;> cases gr <;>
            simp [extract, llmFallback, failureCond, hv2, failRes, okRes,
              parseWithLLM]

end Hrx
